import Mathlib

/-!
Verification development for the in-memory Quiz Session Engine of the
quiz-bot repository (`services/quiz_service.py`).  The engine's data and
operations are shallowly embedded: Python's dynamically typed answer
values become the inductive `PyVal`, datetimes become integer seconds,
the per-user session dictionary becomes a function `Nat → Option
QuizSession`, and the relational store becomes an explicit `DataStore`
record threaded through the operations.  `random.sample` (the only
source of nondeterminism) is abstracted as an explicit index list
subject to its documented contract (distinct indices, length
`min(k, n)`).
-/

set_option maxHeartbeats 1000000

namespace QuizEngine

/-- Python runtime values as they occur in `answers` and `correct_answer`:
integers, strings and (nested) lists. -/
inductive PyVal where
  | int (n : Int)
  | str (s : String)
  | list (xs : List PyVal)
deriving Repr

mutual

/-- Python `==` on the embedded value fragment: structural equality,
with `int` and `str` never equal across types (no implicit coercion). -/
def PyVal.beq : PyVal → PyVal → Bool
  | .int a, .int b => a == b
  | .str a, .str b => a == b
  | .list a, .list b => PyVal.beqList a b
  | _, _ => false

/-- Elementwise Python `==` on lists of values. -/
def PyVal.beqList : List PyVal → List PyVal → Bool
  | [], [] => true
  | x :: xs, y :: ys => PyVal.beq x y && PyVal.beqList xs ys
  | _, _ => false

end

instance : BEq PyVal := ⟨PyVal.beq⟩

mutual

theorem PyVal.beq_iff : ∀ a b : PyVal, PyVal.beq a b = true ↔ a = b
  | .int a, .int b => by simp [PyVal.beq]
  | .int _, .str _ => by simp [PyVal.beq]
  | .int _, .list _ => by simp [PyVal.beq]
  | .str _, .int _ => by simp [PyVal.beq]
  | .str a, .str b => by simp [PyVal.beq]
  | .str _, .list _ => by simp [PyVal.beq]
  | .list _, .int _ => by simp [PyVal.beq]
  | .list _, .str _ => by simp [PyVal.beq]
  | .list a, .list b => by
      simp only [PyVal.beq, PyVal.list.injEq]
      exact PyVal.beqList_iff a b

theorem PyVal.beqList_iff : ∀ a b : List PyVal, PyVal.beqList a b = true ↔ a = b
  | [], [] => by simp [PyVal.beqList]
  | [], _ :: _ => by simp [PyVal.beqList]
  | _ :: _, [] => by simp [PyVal.beqList]
  | x :: xs, y :: ys => by
      simp only [PyVal.beqList, Bool.and_eq_true, List.cons.injEq]
      exact and_congr (PyVal.beq_iff x y) (PyVal.beqList_iff xs ys)

end

instance : DecidableEq PyVal := fun a b =>
  decidable_of_iff (PyVal.beq a b = true) (PyVal.beq_iff a b)

/-- Helper for `pyStr`: rendering of a nested element (nested lists do
not occur in the engine's data). -/
def pyStrAux : PyVal → String
  | .int n => toString n
  | .str s => s
  | .list _ => "[...]"

/-- Python `str()` on the embedded fragment.  Lists do not occur as
elements of sequence answers in practice; their rendering is bracketed
for totality. -/
def pyStr : PyVal → String
  | .int n => toString n
  | .str s => s
  | .list xs => "[" ++ String.intercalate ", " (xs.map pyStrAux) ++ "]"

/-- A question snapshot as built by `start_quiz` from a database row:
`options` and `correct_answer` are the JSON-decoded fields. -/
structure Question where
  id : Nat
  text : String
  options : List String
  correctAnswer : List PyVal
  questionType : String
  explanation : String
deriving Repr, DecidableEq

/-- One user's in-flight quiz state (`quiz_data` dict in the source).
Timestamps are UTC seconds; `answers` is the insertion-ordered dict
keyed by `str(question id)`. -/
structure QuizSession where
  topicId : Nat
  questions : List Question
  currentQuestion : Nat
  answers : List (String × PyVal)
  startTime : Int
  endTime : Int
  timeLimit : Int
  isCompleted : Bool
deriving Repr, DecidableEq

/-- Python dict lookup on the `answers` association list. -/
def dictGet (d : List (String × PyVal)) (k : String) : Option PyVal :=
  match d with
  | [] => none
  | (k', v) :: rest => if k' = k then some v else dictGet rest k

/-- Python dict assignment `d[k] = v`: replaces in place, else appends
(insertion order preserved). -/
def dictSet (d : List (String × PyVal)) (k : String) (v : PyVal) :
    List (String × PyVal) :=
  match d with
  | [] => [(k, v)]
  | (k', v') :: rest =>
      if k' = k then (k, v) :: rest else (k', v') :: dictSet rest k v

/-- The in-memory session store `active_quizzes`, keyed by Telegram user id. -/
def Store := Nat → Option QuizSession

/-- Dict assignment on the session store. -/
def Store.set (st : Store) (u : Nat) (s : QuizSession) : Store :=
  fun v => if v = u then some s else st v

/-- Dict `del` on the session store. -/
def Store.erase (st : Store) (u : Nat) : Store :=
  fun v => if v = u then none else st v

/-- The empty session store. -/
def Store.empty : Store := fun _ => none

/-- Scoring of one question from `complete_quiz` (lines 610–649).
`none` answer means unanswered.  For `single`, the guarded comparison at
lines 618–621 is immediately overwritten by the unguarded access
`question["correct_answer"][0]` at line 622, so an empty
`correct_answer` raises `IndexError` (modelled as `.error ()`); a
nonempty one compares the answer with the head.  For `sequence`, both
sides are stringified elementwise and compared as ordered lists.  Every
other type, including `multiple`, falls through every branch and keeps
`is_correct = False`. -/
def scoreQuestion (q : Question) (userAnswer : Option PyVal) :
    Except Unit Bool :=
  match userAnswer with
  | none => .ok false
  | some ua =>
      if q.questionType = "single" then
        match q.correctAnswer with
        | [] => .error ()
        | c :: _ => .ok (ua = c)
      else if q.questionType = "sequence" then
        let userSeq : List String :=
          match ua with
          | .list xs => xs.map pyStr
          | x => [pyStr x]
        let correctSeq : List String := q.correctAnswer.map pyStr
        .ok (userSeq = correctSeq)
      else
        .ok false

/-- A row of the `users` table, reduced to the fields the engine reads. -/
structure UserRec where
  id : Nat
  telegramId : Nat
deriving Repr, DecidableEq

/-- A row of the `test_results` table as built by `complete_quiz`. -/
structure TestResultRec where
  userId : Nat
  topicId : Nat
  score : Nat
  maxScore : Nat
  percentage : ℚ
  timeSpent : Int
  completedAt : Int
deriving Repr, DecidableEq

/-- A row of the `achievements` table as built by the evaluator. -/
structure AchievementRec where
  userId : Nat
  name : String
  description : String
  points : Nat
deriving Repr, DecidableEq

/-- The relational Data Store consumed by the engine. -/
structure DataStore where
  users : List UserRec
  testResults : List TestResultRec
  achievements : List AchievementRec
deriving Repr, DecidableEq

/-- Embedding of `session.query(User).filter(User.telegram_id == user_id).first()`. -/
def DataStore.findUser (db : DataStore) (telegramId : Nat) : Option UserRec :=
  db.users.find? (fun u => u.telegramId = telegramId)

/-- Embedding of the set comprehension over `user.achievements`: the
user's existing achievement names. -/
def DataStore.achievementNames (db : DataStore) (userDbId : Nat) : List String :=
  (db.achievements.filter (fun a => a.userId = userDbId)).map (·.name)

/-- Embedding of `session.query(TestResult).filter(TestResult.user_id == user.id).count()`. -/
def DataStore.countResults (db : DataStore) (userDbId : Nat) : Nat :=
  (db.testResults.filter (fun r => r.userId = userDbId)).length

/-- One entry of `achievements_to_check`: a fixed rule with its
condition already evaluated against the completion facts. -/
structure AchSpec where
  name : String
  description : String
  points : Nat
  condition : Bool
deriving Repr, DecidableEq

/-- The fixed rule list (identical in `check_achievements` and inlined in
`complete_quiz`): "Первый тест" always fires, "Отличник" on a 100%
attempt, "Знаток истории" once ten results are on record. -/
def achievementsToCheck (percentage : ℚ) (resultCount : Nat) : List AchSpec :=
  [ ⟨"Первый тест", "Пройден первый тест!", 10, true⟩,
    ⟨"Отличник", "Получите 100% в тесте", 50, percentage = 100⟩,
    ⟨"Знаток истории", "Пройдите 10 тестов", 100, resultCount ≥ 10⟩ ]

/-- The achievement evaluation loop: grant every rule whose condition
holds and whose name is absent from the user's existing achievement
names.  The source duplicates this block verbatim in
`check_achievements` and inside `complete_quiz`. -/
def evalAchievements (existing : List String) (percentage : ℚ)
    (resultCount : Nat) : List AchSpec :=
  (achievementsToCheck percentage resultCount).filter
    (fun a => a.name ∉ existing ∧ a.condition)

/-- Python float `round(x, 1)`: to one decimal place.  Mathlib `round`
rounds half away from even differently from CPython's float-aware
banker's rounding, but no tie case arises in the engine's claims. -/
def roundTenths (q : ℚ) : ℚ := (round (10 * q) : ℤ) / 10

/-- Computation `percentage = round(correct/total*100, 1)` with the
zero-division guard of line 654. -/
def computePercentage (correctCount totalQuestions : Nat) : ℚ :=
  if totalQuestions > 0 then
    roundTenths ((correctCount : ℚ) / (totalQuestions : ℚ) * 100)
  else 0

/-- Per-question entry of the returned `question_results` breakdown. -/
structure QuestionResult where
  question : String
  userAnswer : Option PyVal
  correctAnswer : List PyVal
  isCorrect : Bool
  explanation : String
deriving Repr, DecidableEq

/-- The scoring loop of `complete_quiz` (lines 610–649): fold over the
questions, propagating the `IndexError` an empty single-type
`correct_answer` raises. -/
def scoreAll (questions : List Question) (answers : List (String × PyVal)) :
    Except Unit (Nat × List QuestionResult) :=
  match questions with
  | [] => .ok (0, [])
  | q :: rest => do
      let userAnswer := dictGet answers (toString q.id)
      let isCorrect ← scoreQuestion q userAnswer
      let (count, results) ← scoreAll rest answers
      .ok ((if isCorrect then 1 else 0) + count,
           ⟨q.text, userAnswer, q.correctAnswer, isCorrect, q.explanation⟩
             :: results)

/-- The dictionary `complete_quiz` returns on success. -/
structure CompleteOk where
  correctCount : Nat
  totalQuestions : Nat
  percentage : ℚ
  questionResults : List QuestionResult
  newAchievements : List AchSpec
  topicId : Nat
  timeSpent : Int
deriving Repr, DecidableEq

/-- Outcomes of `complete_quiz`: the two structured failures, the
unhandled `IndexError` from scoring, and success. -/
inductive CompleteResult where
  | noActiveQuiz
  | indexError
  | userNotFound
  | ok (r : CompleteOk)
deriving Repr, DecidableEq

/-- Body of `complete_quiz` after the session lookup (lines 601–760):
everything that reads only the session snapshot and the Data Store.
Scoring runs before any database access, so an `IndexError` leaves the
Data Store untouched; a missing user returns the failure before the
result insert; on success the `TestResult` row is inserted and
achievements are evaluated against the user's names with the fresh
result already flushed (SQLAlchemy autoflush makes the line-703 count
see the pending insert).  The session's `is_completed` flag is never
read here. -/
def completeQuizData (now : Int) (db : DataStore) (userId : Nat)
    (quiz : QuizSession) : CompleteResult × DataStore :=
  match scoreAll quiz.questions quiz.answers with
  | .error _ => (.indexError, db)
  | .ok (correctCount, questionResults) =>
      let totalQuestions := quiz.questions.length
      let percentage := computePercentage correctCount totalQuestions
      let endTime : Int := if now > quiz.endTime then quiz.endTime else now
      let timeSpent : Int := endTime - quiz.startTime
      match db.findUser userId with
      | none => (.userNotFound, db)
      | some user =>
          let testResult : TestResultRec :=
            ⟨user.id, quiz.topicId, correctCount, totalQuestions,
             percentage, timeSpent, now⟩
          let db1 : DataStore :=
            { db with testResults := testResult :: db.testResults }
          let newAchievements :=
            evalAchievements (db1.achievementNames user.id) percentage
              (db1.countResults user.id)
          let db2 : DataStore :=
            { db1 with
                achievements := db1.achievements ++
                  newAchievements.map
                    (fun a => ⟨user.id, a.name, a.description, a.points⟩) }
          (.ok ⟨correctCount, totalQuestions, percentage, questionResults,
                newAchievements, quiz.topicId, timeSpent⟩,
           db2)

/-- Operation `complete_quiz(user_id)` (lines 596–773).  `now` stands for
`datetime.now(timezone.utc)` (the engine takes all its readings within
the same second).  The `del self.active_quizzes[user_id]` at line 762 is
reached only on the success path; the `no active quiz`, `IndexError` and
`user not found` exits all leave the session store as it was. -/
def complete_quiz (now : Int) (db : DataStore) (st : Store) (userId : Nat) :
    CompleteResult × DataStore × Store :=
  match st userId with
  | none => (.noActiveQuiz, db, st)
  | some quiz =>
      let (r, db1) := completeQuizData now db userId quiz
      match r with
      | .ok payload => (.ok payload, db1, st.erase userId)
      | other => (other, db1, st)

/-- The time-limit tiers of `start_quiz` (lines 327–332), computed from
the requested `question_count`. -/
def timeLimitFor (questionCount : Nat) : Int :=
  if questionCount ≤ 10 then 5 * 60
  else if questionCount ≤ 15 then 10 * 60
  else 20 * 60

/-- Result of `start_quiz`: either the no-questions failure or the
created session. -/
inductive StartResult where
  | noQuestions
  | ok (quiz : QuizSession)
deriving Repr, DecidableEq

/-- Operation `start_quiz(user_id, topic_id, question_count)` (lines 297–364).
`bank` is the topic's question list as returned by the Data Store
(ordered by id, JSON fields already decoded).  `pick` stands for the
outcome of `random.sample(questions, selected_count)`, given as the
list of chosen indices into `bank` in selection order; theorems assume
`random.sample`'s contract (distinct valid indices of length
`min(question_count, len(bank))`).  Out-of-range indices fall back to
the row itself being dropped, which the contract rules out. -/
def start_quiz (now : Int) (bank : List Question) (pick : List Nat)
    (userId topicId : Nat) (questionCount : Nat) (st : Store) :
    StartResult × Store :=
  if bank.isEmpty then (.noQuestions, st)
  else
    let selectedQuestions := pick.filterMap (fun i => bank.get? i)
    let timeLimit := timeLimitFor questionCount
    let quiz : QuizSession :=
      { topicId := topicId
        questions := selectedQuestions
        currentQuestion := 0
        answers := []
        startTime := now
        endTime := now + timeLimit
        timeLimit := timeLimit
        isCompleted := false }
    (.ok quiz, st.set userId quiz)

/-- Operation `get_current_question(user_id)` (lines 366–387): `none` when no
session exists, when the deadline has passed (marking `is_completed`,
without finalizing), or when the cursor ran off the end; otherwise the
question under the cursor. -/
def get_current_question (now : Int) (st : Store) (userId : Nat) :
    Option Question × Store :=
  match st userId with
  | none => (none, st)
  | some quiz =>
      if now > quiz.endTime then
        (none, st.set userId { quiz with isCompleted := true })
      else if quiz.currentQuestion ≥ quiz.questions.length then
        (none, st)
      else
        (quiz.questions.get? quiz.currentQuestion, st)

/-- Results of `submit_answer` / `skip_question`. -/
inductive SubmitResult where
  | noActiveQuiz
  | timeUp (r : CompleteResult)
  | outOfQuestions
  | completedNow (r : CompleteResult)
  | continuing
deriving Repr, DecidableEq

/-- Answer normalization of `submit_answer` (lines 503–508): for a
`sequence` question every element of a list answer is stringified;
everything else passes through unchanged. -/
def normalizeAnswer (questionType : String) (answer : PyVal) : PyVal :=
  if questionType = "sequence" then
    match answer with
    | .list xs => .list (xs.map (fun a => .str (pyStr a)))
    | a => a
  else answer

/-- Operation `submit_answer(user_id, question_id, answer)` (lines 481–522).  A
passed deadline flips `is_completed` and short-circuits into
`complete_quiz` without touching `answers` or the cursor; otherwise the
normalized answer is recorded under `str(current_question["id"])`, the
cursor advances, and exhaustion triggers completion.  The `question_id`
argument is never validated against the current question in the source,
so it is not a parameter here. -/
def submit_answer (now : Int) (db : DataStore) (st : Store) (userId : Nat)
    (answer : PyVal) : SubmitResult × DataStore × Store :=
  match st userId with
  | none => (.noActiveQuiz, db, st)
  | some quiz =>
      if now > quiz.endTime then
        let st1 := st.set userId { quiz with isCompleted := true }
        let (r, db1, st2) := complete_quiz now db st1 userId
        (.timeUp r, db1, st2)
      else if quiz.currentQuestion ≥ quiz.questions.length then
        (.outOfQuestions, db, st)
      else
        match quiz.questions.get? quiz.currentQuestion with
        | none => (.outOfQuestions, db, st)
        | some currentQuestion =>
            let normalized := normalizeAnswer currentQuestion.questionType answer
            let quiz1 :=
              { quiz with
                  answers := dictSet quiz.answers (toString currentQuestion.id)
                    normalized
                  currentQuestion := quiz.currentQuestion + 1 }
            if quiz1.currentQuestion ≥ quiz1.questions.length then
              let st1 := st.set userId { quiz1 with isCompleted := true }
              let (r, db1, st2) := complete_quiz now db st1 userId
              (.completedNow r, db1, st2)
            else
              (.continuing, db, st.set userId quiz1)

/-- Operation `skip_question(user_id)` (lines 524–552): same control flow as
`submit_answer` with no `answers` write. -/
def skip_question (now : Int) (db : DataStore) (st : Store) (userId : Nat) :
    SubmitResult × DataStore × Store :=
  match st userId with
  | none => (.noActiveQuiz, db, st)
  | some quiz =>
      if now > quiz.endTime then
        let st1 := st.set userId { quiz with isCompleted := true }
        let (r, db1, st2) := complete_quiz now db st1 userId
        (.timeUp r, db1, st2)
      else if quiz.currentQuestion ≥ quiz.questions.length then
        (.outOfQuestions, db, st)
      else
        let quiz1 := { quiz with currentQuestion := quiz.currentQuestion + 1 }
        if quiz1.currentQuestion ≥ quiz1.questions.length then
          let st1 := st.set userId { quiz1 with isCompleted := true }
          let (r, db1, st2) := complete_quiz now db st1 userId
          (.completedNow r, db1, st2)
        else
          (.continuing, db, st.set userId quiz1)

/-- Operation `restore_active_quizzes` (lines 161–228) over well-formed per-user
files.  `files` is the directory scan: one parsed `(user_id, quiz_data)`
per `user_<id>.json` file.  A file whose `end_time` is strictly in the
past is skipped and deleted; every other file is loaded into the store
as-is.  Returns the store after the pass and the files left on disk. -/
def restore_active_quizzes (now : Int) :
    List (Nat × QuizSession) → Store → Store × List (Nat × QuizSession)
  | [], st => (st, [])
  | (userId, quiz) :: rest, st =>
      if quiz.endTime < now then
        restore_active_quizzes now rest st
      else
        let (st1, kept) := restore_active_quizzes now rest (st.set userId quiz)
        (st1, (userId, quiz) :: kept)

/-- Whether a completion result is the success case. -/
def CompleteResult.isOk : CompleteResult → Bool
  | .ok _ => true
  | _ => false

/-- Payload extraction from a completion result (default on failures). -/
def CompleteResult.okd : CompleteResult → CompleteOk
  | .ok r => r
  | _ => ⟨0, 0, 0, [], [], 0, 0⟩

@[simp]
theorem Store.set_self (st : Store) (u : Nat) (s : QuizSession) :
    st.set u s u = some s := by
  simp [Store.set]

theorem Store.set_other (st : Store) (u v : Nat) (s : QuizSession)
    (h : v ≠ u) : st.set u s v = st v := by
  simp [Store.set, h]

@[simp]
theorem Store.erase_self (st : Store) (u : Nat) : st.erase u u = none := by
  simp [Store.erase]

theorem Store.erase_other (st : Store) (u v : Nat) (h : v ≠ u) :
    st.erase u v = st v := by
  simp [Store.erase, h]

/-- Unfolding of `complete_quiz` when a session is present: result and
Data Store come from `completeQuizData`; the session is erased exactly
on success. -/
theorem complete_quiz_some (now : Int) (db : DataStore) (st : Store)
    (userId : Nat) (quiz : QuizSession) (hs : st userId = some quiz) :
    complete_quiz now db st userId =
      ((completeQuizData now db userId quiz).1,
       (completeQuizData now db userId quiz).2,
       if (completeQuizData now db userId quiz).1.isOk then st.erase userId
       else st) := by
  unfold complete_quiz
  rw [hs]
  rcases h : completeQuizData now db userId quiz with ⟨r, db1⟩
  cases r <;> simp [h, CompleteResult.isOk]

/-- The completion body never reads the session's `is_completed` flag. -/
theorem completeQuizData_isCompleted (now : Int) (db : DataStore)
    (userId : Nat) (quiz : QuizSession) (b : Bool) :
    completeQuizData now db userId { quiz with isCompleted := b } =
      completeQuizData now db userId quiz := rfl

/-- Concrete multiple-choice question: three options, correct set {0, 2}. -/
def exMultipleQ : Question :=
  ⟨5, "pick all that apply", ["a", "b", "c"], [.int 0, .int 2], "multiple", ""⟩

/-- C1: the claim says a `multiple` question is scored correct iff the
chosen index set equals the correct index set.  The scoring loop of
`complete_quiz` has branches only for `single` and `sequence`, so every
answered `multiple` question keeps `is_correct = False`: even an answer
whose set of indices equals the correct set is scored incorrect.  This
refutes the claim's positive direction; the code, not the claim, is at
fault (the handlers implement the full multiple-selection UI whose only
purpose is set-equality scoring). -/
theorem multiple_always_scored_incorrect (q : Question) (a : PyVal)
    (h : q.questionType = "multiple") :
    scoreQuestion q (some a) = .ok false := by
  simp [scoreQuestion, h]

/-- Witness for C1 at the spec's own example: submitting `[2, 0]` when
the correct answer is `[0, 2]` is scored incorrect by the code. -/
theorem multiple_always_scored_incorrect_witness :
    exMultipleQ.questionType = "multiple" ∧
      scoreQuestion exMultipleQ (some (.list [.int 2, .int 0])) = .ok false :=
  ⟨rfl, multiple_always_scored_incorrect exMultipleQ _ rfl⟩

/-- Concrete single-choice question whose `correct_answer` list is empty. -/
def exEmptySingleQ : Question :=
  ⟨6, "broken question", ["a", "b"], [], "single", ""⟩

/-- C2: the claim says scoring a `single` question guards against an
empty `correctAnswer` and never raises.  The guard at lines 617-621 is
real but its result is overwritten by the unguarded access
`question["correct_answer"][0]` at line 622, so an answered `single`
question with empty `correct_answer` raises `IndexError` out of the
scoring loop.  The code contradicts its own guard and the comment above
it. -/
theorem single_empty_correct_answer_raises (q : Question) (a : PyVal)
    (ht : q.questionType = "single") (hc : q.correctAnswer = []) :
    scoreQuestion q (some a) = .error () := by
  simp [scoreQuestion, ht, hc]

/-- Witness for C2: the empty-correct-answer single question raises on
any recorded answer. -/
theorem single_empty_correct_answer_raises_witness :
    exEmptySingleQ.questionType = "single" ∧ exEmptySingleQ.correctAnswer = [] ∧
      scoreQuestion exEmptySingleQ (some (.int 0)) = .error () :=
  ⟨rfl, rfl, single_empty_correct_answer_raises exEmptySingleQ _ rfl rfl⟩

/-- C9: achievement granting is idempotent.  A rule fires only when its
name is absent from the user's existing achievement names, so re-running
the evaluator over the same completion facts, with the first run's
grants now recorded in the user's history, grants nothing at all — in
particular no name is ever granted twice. -/
theorem evalAchievements_idempotent (existing : List String) (p : ℚ)
    (c : Nat) :
    evalAchievements
      (existing ++ (evalAchievements existing p c).map (·.name)) p c = [] := by
  unfold evalAchievements
  rw [List.filter_eq_nil_iff]
  intro a ha hdec
  rw [decide_eq_true_eq] at hdec
  obtain ⟨hno, hcond⟩ := hdec
  apply hno
  apply List.mem_append.mpr
  refine Or.inr (List.mem_map.mpr ⟨a, List.mem_filter.mpr ⟨ha, ?_⟩, rfl⟩)
  rw [decide_eq_true_eq]
  exact ⟨fun hmem => hno (List.mem_append.mpr (Or.inl hmem)), hcond⟩

/-- C10: when `complete_quiz` fails because the user is absent from the
Data Store, it returns the failure with the Data Store unchanged (no
`TestResult`, no achievement) and the Session Store unchanged (the
line-762 delete is only on the success path). -/
theorem complete_quiz_user_not_found (now : Int) (db : DataStore) (st : Store)
    (userId : Nat) (quiz : QuizSession)
    (hs : st userId = some quiz)
    (hscore : ∃ v, scoreAll quiz.questions quiz.answers = .ok v)
    (hu : db.findUser userId = none) :
    complete_quiz now db st userId = (.userNotFound, db, st) := by
  obtain ⟨⟨cnt, qres⟩, hv⟩ := hscore
  rw [complete_quiz_some now db st userId quiz hs]
  simp [completeQuizData, hv, hu, CompleteResult.isOk]

/-- Concrete single-choice question with id 3 and correct index 0. -/
def exSingleQ : Question := ⟨3, "q", ["a", "b"], [.int 0], "single", ""⟩

/-- Concrete finished session over `exSingleQ`, answered correctly. -/
def exQuizDone : QuizSession :=
  ⟨7, [exSingleQ], 1, [("3", .int 0)], 1000, 1300, 300, false⟩

/-- Session store holding `exQuizDone` for user 42. -/
def exStC10 : Store := Store.empty.set 42 exQuizDone

/-- Empty Data Store: user 42 does not exist. -/
def exDbC10 : DataStore := ⟨[], [], []⟩

/-- Witness for C10: with no matching user row, completion fails and
both stores are returned untouched. -/
theorem complete_quiz_user_not_found_witness :
    exStC10 42 = some exQuizDone ∧
    exDbC10.findUser 42 = none ∧
    complete_quiz 1100 exDbC10 exStC10 42 = (.userNotFound, exDbC10, exStC10) :=
  ⟨rfl, rfl,
   complete_quiz_user_not_found 1100 exDbC10 exStC10 42 exQuizDone rfl
     ⟨_, rfl⟩ rfl⟩

/-- C3: the reported `time_spent` of a successful completion equals
`min(now, endTime) - startTime`: capped at the scheduled deadline when
completion happens at or after it (and hence at `timeLimit` for sessions
whose deadline was computed as `startTime + timeLimit`), and equal to
the actual elapsed time otherwise. -/
theorem complete_quiz_time_spent (now : Int) (db : DataStore) (st : Store)
    (userId : Nat) (quiz : QuizSession) (r : CompleteOk)
    (hs : st userId = some quiz)
    (h : (complete_quiz now db st userId).1 = .ok r) :
    r.timeSpent = min now quiz.endTime - quiz.startTime ∧
    (now ≥ quiz.endTime → r.timeSpent = quiz.endTime - quiz.startTime) ∧
    (now < quiz.endTime → r.timeSpent = now - quiz.startTime) ∧
    (quiz.endTime = quiz.startTime + quiz.timeLimit → now ≥ quiz.endTime →
      r.timeSpent = quiz.timeLimit) := by
  rw [complete_quiz_some now db st userId quiz hs] at h
  unfold completeQuizData at h
  rcases hv : scoreAll quiz.questions quiz.answers with hv' | ⟨cnt, qres⟩
  · rw [hv] at h
    simp at h
  · rw [hv] at h
    rcases hu : db.findUser userId with hu' | user
    · rw [hu] at h
      simp at h
    · rw [hu] at h
      simp only [CompleteResult.ok.injEq] at h
      have ht : r.timeSpent =
          (if now > quiz.endTime then quiz.endTime else now) - quiz.startTime := by
        rw [← h]
      rw [ht]
      rcases le_or_lt now quiz.endTime with hle | hlt
      · have hif : ¬ now > quiz.endTime := not_lt.mpr hle
        rw [if_neg hif, min_eq_left hle]
        refine ⟨rfl, ?_, fun _ => rfl, ?_⟩
        · intro hge
          have : now = quiz.endTime := le_antisymm hle hge
          rw [this]
        · intro heq hge
          have : now = quiz.endTime := le_antisymm hle hge
          rw [this, heq]
          ring
      · rw [if_pos hlt, min_eq_right (le_of_lt hlt)]
        refine ⟨rfl, fun _ => rfl, ?_, ?_⟩
        · intro hcontra
          exact absurd hcontra (not_lt.mpr (le_of_lt hlt))
        · intro heq _
          rw [heq]
          ring

/-- User row for the C3 witness: db id 1, Telegram id 100. -/
def exUserC3 : UserRec := ⟨1, 100⟩

/-- Data Store for the C3 witness. -/
def exDbC3 : DataStore := ⟨[exUserC3], [], []⟩

/-- Session store for the C3 witness: user 100 mid-quiz. -/
def exStC3 : Store := Store.empty.set 100 exQuizDone

/-- Success payload of completing user 100's quiz at time 1400 (past
the 1300 deadline). -/
def exPayloadC3 : CompleteOk := (complete_quiz 1400 exDbC3 exStC3 100).1.okd

/-- Witness for C3: completing 100 seconds past the deadline reports
`time_spent = 300`, the scheduled time limit, not the wall-clock 400. -/
theorem complete_quiz_time_spent_witness :
    exStC3 100 = some exQuizDone ∧
    (complete_quiz 1400 exDbC3 exStC3 100).1 = .ok exPayloadC3 ∧
    exPayloadC3.timeSpent = min 1400 exQuizDone.endTime - exQuizDone.startTime ∧
    exPayloadC3.timeSpent = exQuizDone.timeLimit :=
  ⟨rfl, rfl,
   (complete_quiz_time_spent 1400 exDbC3 exStC3 100 exQuizDone exPayloadC3
      rfl rfl).1,
   (complete_quiz_time_spent 1400 exDbC3 exStC3 100 exQuizDone exPayloadC3
      rfl rfl).2.2.2 rfl (by decide)⟩

/-- Payload extraction from a start result (default on failure). -/
def StartResult.okd : StartResult → QuizSession
  | .ok q => q
  | _ => ⟨0, [], 0, [], 0, 0, 0, false⟩

/-- C6: the created session's `time_limit` is computed from the
requested `question_count` by the tiers `<=10 -> 300s`, `<=15 -> 600s`,
else `1200s` — the expression depends only on the requested count, never
on the sampled questions — and `end_time = start_time + time_limit`. -/
theorem start_quiz_time_limit_tiers (now : Int) (bank : List Question)
    (pick : List Nat) (userId topicId questionCount : Nat) (st : Store)
    (quiz : QuizSession) (st' : Store)
    (hbank : bank ≠ [])
    (h : start_quiz now bank pick userId topicId questionCount st =
      (.ok quiz, st')) :
    quiz.timeLimit =
      (if questionCount ≤ 10 then 300
       else if questionCount ≤ 15 then 600 else 1200) ∧
    quiz.startTime = now ∧
    quiz.endTime = quiz.startTime + quiz.timeLimit := by
  have hbe : bank.isEmpty = false := by
    simpa [List.isEmpty_iff] using hbank
  unfold start_quiz at h
  rw [hbe] at h
  simp only [Bool.false_eq_true, if_false, Prod.mk.injEq,
    StartResult.ok.injEq] at h
  obtain ⟨hq, hst⟩ := h
  subst hq
  refine ⟨?_, rfl, rfl⟩
  simp only [timeLimitFor]
  split_ifs <;> norm_num

/-- Question bank of two questions for the C6 witness. -/
def exBankC6 : List Question :=
  [⟨1, "q1", ["a"], [.int 0], "single", ""⟩,
   ⟨2, "q2", ["a"], [.int 0], "single", ""⟩]

/-- Session created by requesting 20 questions from the 2-question bank. -/
def exQuizC6 : QuizSession :=
  (start_quiz 1000 exBankC6 [0, 1] 5 9 20 Store.empty).1.okd

/-- Witness for C6: requesting 20 questions when only 2 exist still
yields the 1200-second tier of the requested count. -/
theorem start_quiz_time_limit_tiers_witness :
    exBankC6 ≠ [] ∧
    start_quiz 1000 exBankC6 [0, 1] 5 9 20 Store.empty =
      (.ok exQuizC6, (start_quiz 1000 exBankC6 [0, 1] 5 9 20 Store.empty).2) ∧
    exQuizC6.timeLimit = 1200 ∧
    exQuizC6.endTime = exQuizC6.startTime + exQuizC6.timeLimit := by
  have h := start_quiz_time_limit_tiers 1000 exBankC6 [0, 1] 5 9 20
    Store.empty exQuizC6 (start_quiz 1000 exBankC6 [0, 1] 5 9 20 Store.empty).2
    (by decide) rfl
  exact ⟨by decide, rfl, h.1.trans (by norm_num), h.2.2⟩

/-- The time-limit tiers are always positive. -/
theorem timeLimitFor_pos (questionCount : Nat) : 0 < timeLimitFor questionCount := by
  unfold timeLimitFor
  split_ifs <;> norm_num

/-- Reading the current question of a stored, unexpired, unexhausted
session returns the question under the cursor. -/
theorem get_current_question_eq (now : Int) (st : Store) (u : Nat)
    (s : QuizSession) (hs : st u = some s) (h1 : ¬ now > s.endTime)
    (h2 : s.currentQuestion < s.questions.length) :
    (get_current_question now st u).1 = s.questions.get? s.currentQuestion := by
  unfold get_current_question
  simp only [hs]
  rw [if_neg h1, if_neg (not_le.mpr h2)]

/-- A nonempty list has a first element. -/
theorem get?_zero_isSome (l : List Question) (hl : l ≠ []) :
    (l.get? 0).isSome := by
  cases l with
  | nil => exact absurd rfl hl
  | cons a t => rfl

/-- C8: at most one session per user — `start_quiz` stores the new
session under the user's key, silently replacing any prior one, and
`get_current_question` immediately afterwards returns the new session's
first question (cursor 0, empty answers). -/
theorem start_quiz_overwrites_prior (now : Int) (bank : List Question)
    (pick : List Nat) (userId topicId questionCount : Nat) (st : Store)
    (oldQuiz newQuiz : QuizSession) (st' : Store)
    (_hold : st userId = some oldQuiz)
    (hbank : bank ≠ [])
    (h : start_quiz now bank pick userId topicId questionCount st =
      (.ok newQuiz, st'))
    (hq : newQuiz.questions ≠ []) :
    st' userId = some newQuiz ∧
    newQuiz.currentQuestion = 0 ∧
    newQuiz.answers = [] ∧
    (get_current_question now st' userId).1 = newQuiz.questions.get? 0 ∧
    (newQuiz.questions.get? 0).isSome := by
  have hbe : bank.isEmpty = false := by
    simpa [List.isEmpty_iff] using hbank
  unfold start_quiz at h
  rw [hbe] at h
  simp only [Bool.false_eq_true, if_false, Prod.mk.injEq,
    StartResult.ok.injEq] at h
  obtain ⟨hquiz, hst⟩ := h
  subst hquiz
  subst hst
  have hlate : ¬ now > now + timeLimitFor questionCount := by
    have hpos := timeLimitFor_pos questionCount
    omega
  refine ⟨Store.set_self st userId _, rfl, rfl, ?_,
    get?_zero_isSome _ hq⟩
  exact get_current_question_eq now _ userId _
    (Store.set_self st userId _) hlate (List.length_pos.mpr hq)

/-- Prior session of user 77 for the C8 witness. -/
def exOldQuizC8 : QuizSession :=
  ⟨1, [⟨9, "old", ["x"], [.int 0], "single", ""⟩], 0, [], 0, 300, 300, false⟩

/-- Store holding user 77's prior session. -/
def exStC8 : Store := Store.empty.set 77 exOldQuizC8

/-- Question bank of the second topic for the C8 witness. -/
def exBankC8 : List Question := [⟨21, "n1", ["a", "b"], [.int 1], "single", ""⟩]

/-- The session created by the second `start_quiz` for user 77. -/
def exNewQuizC8 : QuizSession :=
  (start_quiz 500 exBankC8 [0] 77 2 10 exStC8).1.okd

/-- Store after the second `start_quiz`. -/
def exStC8' : Store := (start_quiz 500 exBankC8 [0] 77 2 10 exStC8).2

/-- Witness for C8: user 77's old session is replaced, and
`get_current_question` reflects only the new session's first question. -/
theorem start_quiz_overwrites_prior_witness :
    exStC8 77 = some exOldQuizC8 ∧
    start_quiz 500 exBankC8 [0] 77 2 10 exStC8 = (.ok exNewQuizC8, exStC8') ∧
    exNewQuizC8.questions ≠ [] ∧
    exStC8' 77 = some exNewQuizC8 ∧
    (get_current_question 500 exStC8' 77).1 = exNewQuizC8.questions.get? 0 := by
  have h := start_quiz_overwrites_prior 500 exBankC8 [0] 77 2 10 exStC8
    exOldQuizC8 exNewQuizC8 exStC8' rfl (by decide) rfl (by decide)
  exact ⟨rfl, rfl, by decide, h.1, h.2.2.2.1⟩

/-- Selecting by a list of in-range indices yields one question per index. -/
theorem filterMap_get?_length (bank : List Question) (pick : List Nat)
    (hv : ∀ i ∈ pick, i < bank.length) :
    (pick.filterMap (fun i => bank.get? i)).length = pick.length := by
  induction pick with
  | nil => simp
  | cons i rest ih =>
    have hi : i < bank.length := hv i (List.mem_cons_self i rest)
    have hg : bank.get? i = some bank[i] := by
      rw [List.get?_eq_getElem?]
      exact List.getElem?_eq_getElem hi
    rw [List.filterMap_cons, hg]
    simp only [List.length_cons]
    rw [ih (fun j hj => hv j (List.mem_cons_of_mem i hj))]

/-- Every selected question comes from the bank. -/
theorem filterMap_get?_subset (bank : List Question) (pick : List Nat) :
    pick.filterMap (fun i => bank.get? i) ⊆ bank := by
  intro q h
  rcases List.mem_filterMap.mp h with ⟨i, _, hg⟩
  rw [List.get?_eq_getElem?] at hg
  rcases List.getElem?_eq_some_iff.mp hg with ⟨hi, rfl⟩
  exact List.getElem_mem hi

/-- Distinct in-range indices into a duplicate-free bank select
pairwise-distinct questions. -/
theorem filterMap_get?_nodup (bank : List Question) (hbn : bank.Nodup)
    (pick : List Nat) (hp : pick.Nodup)
    (hv : ∀ i ∈ pick, i < bank.length) :
    (pick.filterMap (fun i => bank.get? i)).Nodup := by
  induction pick with
  | nil => simp
  | cons i rest ih =>
    have hi : i < bank.length := hv i (List.mem_cons_self i rest)
    have hg : bank.get? i = some bank[i] := by
      rw [List.get?_eq_getElem?]
      exact List.getElem?_eq_getElem hi
    rw [List.filterMap_cons, hg]
    rcases List.nodup_cons.mp hp with ⟨hnotin, hrest⟩
    refine List.nodup_cons.mpr
      ⟨?_, ih hrest (fun j hj => hv j (List.mem_cons_of_mem i hj))⟩
    intro hmem
    rcases List.mem_filterMap.mp hmem with ⟨j, hj, hgj⟩
    have hij : i = j := by
      apply List.getElem?_inj hi hbn
      rw [← List.get?_eq_getElem?, ← List.get?_eq_getElem?, hg, hgj]
    exact hnotin (hij ▸ hj)

/-- C5: under `random.sample`'s contract (distinct in-range indices,
`min(questionCount, N)` of them) and a duplicate-free bank (distinct
database ids), `start_quiz` builds a session whose question list has
exactly `min(questionCount, N)` pairwise-distinct questions drawn from
the bank, with cursor 0 and empty answers, stored under the user's key. -/
theorem start_quiz_sampling (now : Int) (bank : List Question)
    (pick : List Nat) (userId topicId questionCount : Nat) (st : Store)
    (quiz : QuizSession) (st' : Store)
    (hids : (bank.map Question.id).Nodup)
    (hp : pick.Nodup)
    (hv : ∀ i ∈ pick, i < bank.length)
    (hlen : pick.length = min questionCount bank.length)
    (hbank : bank ≠ [])
    (h : start_quiz now bank pick userId topicId questionCount st =
      (.ok quiz, st')) :
    quiz.questions.length = min questionCount bank.length ∧
    quiz.questions.Nodup ∧
    quiz.questions ⊆ bank ∧
    quiz.currentQuestion = 0 ∧
    quiz.answers = [] ∧
    st' userId = some quiz := by
  have hbe : bank.isEmpty = false := by
    simpa [List.isEmpty_iff] using hbank
  unfold start_quiz at h
  rw [hbe] at h
  simp only [Bool.false_eq_true, if_false, Prod.mk.injEq,
    StartResult.ok.injEq] at h
  obtain ⟨hquiz, hst⟩ := h
  subst hquiz
  subst hst
  refine ⟨?_, ?_, ?_, rfl, rfl, Store.set_self st userId _⟩
  · rw [filterMap_get?_length bank pick hv]
    exact hlen
  · exact filterMap_get?_nodup bank (List.Nodup.of_map Question.id hids)
      pick hp hv
  · exact filterMap_get?_subset bank pick

/-- Bank of three questions for the C5 witness. -/
def exBankC5 : List Question :=
  [⟨31, "a?", ["x", "y"], [.int 0], "single", ""⟩,
   ⟨32, "b?", ["x", "y"], [.int 1], "single", ""⟩,
   ⟨33, "c?", ["x", "y"], [.int 0], "single", ""⟩]

/-- Session sampled from `exBankC5` with indices `[2, 0]`. -/
def exQuizC5 : QuizSession :=
  (start_quiz 0 exBankC5 [2, 0] 8 4 2 Store.empty).1.okd

/-- Store after the C5 witness's `start_quiz`. -/
def exStC5 : Store := (start_quiz 0 exBankC5 [2, 0] 8 4 2 Store.empty).2

/-- Witness for C5: requesting 2 of 3 questions yields 2 distinct bank
questions, fresh cursor and answers. -/
theorem start_quiz_sampling_witness :
    (exBankC5.map Question.id).Nodup ∧
    List.Nodup [2, 0] ∧
    exBankC5 ≠ [] ∧
    exQuizC5.questions.length = min 2 exBankC5.length ∧
    exQuizC5.questions.Nodup ∧
    exQuizC5.questions ⊆ exBankC5 ∧
    exQuizC5.currentQuestion = 0 ∧
    exQuizC5.answers = [] ∧
    exStC5 8 = some exQuizC5 := by
  have h := start_quiz_sampling 0 exBankC5 [2, 0] 8 4 2 Store.empty
    exQuizC5 exStC5 (by decide) (by decide) (by decide) (by decide)
    (by decide) rfl
  exact ⟨by decide, by decide, by decide, h.1, h.2.1, h.2.2.1,
    h.2.2.2.1, h.2.2.2.2.1, h.2.2.2.2.2⟩

/-- Looking up a user with no stored session yields no current question. -/
theorem get_current_question_none (now : Int) (st : Store) (u : Nat)
    (h : st u = none) : (get_current_question now st u).1 = none := by
  unfold get_current_question
  simp [h]

/-- Completing with no stored session fails with the no-active-quiz result. -/
theorem complete_quiz_none (now : Int) (db : DataStore) (st : Store) (u : Nat)
    (h : st u = none) : complete_quiz now db st u = (.noActiveQuiz, db, st) := by
  unfold complete_quiz
  rw [h]

/-- A restore pass never touches a user who has no file on disk. -/
theorem restore_not_mem (now : Int) (u : Nat) :
    ∀ (files : List (Nat × QuizSession)) (st : Store),
      u ∉ files.map Prod.fst →
      (restore_active_quizzes now files st).1 u = st u ∧
      ∀ s', (u, s') ∉ (restore_active_quizzes now files st).2 := by
  intro files
  induction files with
  | nil =>
    intro st _
    simp [restore_active_quizzes]
  | cons f rest ih =>
    rcases f with ⟨v, q⟩
    intro st hu
    simp only [List.map_cons, List.mem_cons, not_or] at hu
    obtain ⟨hne, hurest⟩ := hu
    unfold restore_active_quizzes
    by_cases hexp : q.endTime < now
    · rw [if_pos hexp]
      exact ih st hurest
    · rw [if_neg hexp]
      rcases hres : restore_active_quizzes now rest (st.set v q) with ⟨st1, kept⟩
      obtain ⟨h1, h2⟩ := ih (st.set v q) hurest
      rw [hres] at h1 h2
      simp only [hres]
      constructor
      · exact h1.trans (Store.set_other st v u q hne)
      · intro s' hmem
        rcases List.mem_cons.mp hmem with heq | hin
        · exact hne (congrArg Prod.fst heq)
        · exact h2 s' hin

/-- Behaviour of a restore pass on a user whose file is on disk:
expired files leave the incoming store value in place and are deleted;
unexpired files are loaded verbatim and kept on disk. -/
theorem restore_mem (now : Int) (u : Nat) (s : QuizSession) :
    ∀ (files : List (Nat × QuizSession)) (st : Store),
      (files.map Prod.fst).Nodup → (u, s) ∈ files →
      ((s.endTime < now →
          (restore_active_quizzes now files st).1 u = st u ∧
          ∀ s', (u, s') ∉ (restore_active_quizzes now files st).2) ∧
       (¬ s.endTime < now →
          (restore_active_quizzes now files st).1 u = some s ∧
          (u, s) ∈ (restore_active_quizzes now files st).2)) := by
  intro files
  induction files with
  | nil =>
    intro st _ hmem
    exact absurd hmem (List.not_mem_nil (u, s))
  | cons f rest ih =>
    rcases f with ⟨v, q⟩
    intro st hnd hmem
    simp only [List.map_cons, List.nodup_cons] at hnd
    obtain ⟨hvout, hndrest⟩ := hnd
    rcases List.mem_cons.mp hmem with heq | hin
    · cases heq
      unfold restore_active_quizzes
      by_cases hexp : s.endTime < now
      · rw [if_pos hexp]
        refine ⟨fun _ => restore_not_mem now u rest st hvout,
          fun hne => absurd hexp hne⟩
      · rw [if_neg hexp]
        rcases hres : restore_active_quizzes now rest (st.set u s)
          with ⟨st1, kept⟩
        obtain ⟨h1, _⟩ := restore_not_mem now u rest (st.set u s) hvout
        rw [hres] at h1
        simp only [hres]
        refine ⟨fun hexp' => absurd hexp' hexp, fun _ => ⟨?_, ?_⟩⟩
        · exact h1.trans (Store.set_self st u s)
        · exact List.mem_cons_self (u, s) kept
    · have huin : u ∈ rest.map Prod.fst :=
        List.mem_map.mpr ⟨(u, s), hin, rfl⟩
      have hne : u ≠ v := fun h => hvout (h ▸ huin)
      unfold restore_active_quizzes
      by_cases hexp : q.endTime < now
      · rw [if_pos hexp]
        exact ih st hndrest hin
      · rw [if_neg hexp]
        rcases hres : restore_active_quizzes now rest (st.set v q)
          with ⟨st1, kept⟩
        obtain ⟨hexpired, hlive⟩ := ih (st.set v q) hndrest hin
        rw [hres] at hexpired hlive
        simp only [hres]
        constructor
        · intro hx
          obtain ⟨h1, h2⟩ := hexpired hx
          refine ⟨?_, fun s' hmem' => ?_⟩
          · exact h1.trans (Store.set_other st v u q hne)
          · rcases List.mem_cons.mp hmem' with heq' | hin'
            · exact hne (congrArg Prod.fst heq')
            · exact h2 s' hin'
        · intro hx
          obtain ⟨h1, h2⟩ := hlive hx
          exact ⟨h1, List.mem_cons_of_mem (v, q) h2⟩

/-- C7: restoring from disk into an empty Session Store discards every
per-user file whose stored `end_time` is already past `now` — the file
is deleted, the user has no session, and the engine reports no current
question and `no active quiz` for them — while every other file is
loaded as-is (same cursor, same partial answers) and left on disk. -/
theorem restore_discards_expired (now : Int)
    (files : List (Nat × QuizSession)) (u : Nat) (s : QuizSession)
    (db : DataStore)
    (hnd : (files.map Prod.fst).Nodup) (hmem : (u, s) ∈ files) :
    (s.endTime < now →
       (restore_active_quizzes now files Store.empty).1 u = none ∧
       (∀ s', (u, s') ∉ (restore_active_quizzes now files Store.empty).2) ∧
       (get_current_question now
         (restore_active_quizzes now files Store.empty).1 u).1 = none ∧
       (complete_quiz now db
         (restore_active_quizzes now files Store.empty).1 u).1 =
           .noActiveQuiz) ∧
    (¬ s.endTime < now →
       (restore_active_quizzes now files Store.empty).1 u = some s ∧
       (u, s) ∈ (restore_active_quizzes now files Store.empty).2) := by
  obtain ⟨hexp, hlive⟩ := restore_mem now u s files Store.empty hnd hmem
  constructor
  · intro hx
    obtain ⟨h1, h2⟩ := hexp hx
    have hnone : (restore_active_quizzes now files Store.empty).1 u = none := h1
    refine ⟨hnone, h2, get_current_question_none now _ u hnone, ?_⟩
    rw [complete_quiz_none now db _ u hnone]
  · exact hlive

/-- Expired session on disk for the C7 witness (deadline 10). -/
def exExpiredC7 : QuizSession := ⟨1, [], 0, [], 0, 10, 300, false⟩

/-- Live session on disk for the C7 witness (deadline 2000, cursor 1,
one partial answer). -/
def exLiveC7 : QuizSession :=
  ⟨2, [⟨41, "q", ["x", "y"], [.int 1], "single", ""⟩], 1,
   [("41", .int 0)], 1700, 2000, 300, false⟩

/-- The on-disk files for the C7 witness. -/
def exFilesC7 : List (Nat × QuizSession) := [(1, exExpiredC7), (2, exLiveC7)]

/-- Witness for C7 at restore time 1000: user 1's expired file is
dropped and deleted, user 2's live file is loaded verbatim. -/
theorem restore_discards_expired_witness :
    (restore_active_quizzes 1000 exFilesC7 Store.empty).1 1 = none ∧
    (1, exExpiredC7) ∉ (restore_active_quizzes 1000 exFilesC7 Store.empty).2 ∧
    (get_current_question 1000
      (restore_active_quizzes 1000 exFilesC7 Store.empty).1 1).1 = none ∧
    (complete_quiz 1000 ⟨[], [], []⟩
      (restore_active_quizzes 1000 exFilesC7 Store.empty).1 1).1 =
        .noActiveQuiz ∧
    (restore_active_quizzes 1000 exFilesC7 Store.empty).1 2 = some exLiveC7 ∧
    (2, exLiveC7) ∈ (restore_active_quizzes 1000 exFilesC7 Store.empty).2 := by
  have h1 := (restore_discards_expired 1000 exFilesC7 1 exExpiredC7
    ⟨[], [], []⟩ (by decide) (by decide)).1 (by decide)
  have h2 := (restore_discards_expired 1000 exFilesC7 2 exLiveC7
    ⟨[], [], []⟩ (by decide) (by decide)).2 (by decide)
  exact ⟨h1.1, h1.2.1 exExpiredC7, h1.2.2.1, h1.2.2.2, h2.1, h2.2⟩

/-- C4: when the deadline has passed, `submit_answer` and
`skip_question` do not record the answer or advance the cursor; they
short-circuit into `complete_quiz` and return its result tagged as a
timeout, with the same result payload, the same Data Store writes, and
the same session-removal outcome as calling `complete_quiz` directly at
that moment (the only possible difference is the `is_completed` flag on
a session that survives a failed completion). -/
theorem submit_after_deadline_equals_complete (now : Int) (db : DataStore)
    (st : Store) (userId : Nat) (quiz : QuizSession) (answer : PyVal)
    (hs : st userId = some quiz) (ht : now > quiz.endTime) :
    (submit_answer now db st userId answer).1 =
      .timeUp (complete_quiz now db st userId).1 ∧
    (submit_answer now db st userId answer).2.1 =
      (complete_quiz now db st userId).2.1 ∧
    (skip_question now db st userId).1 =
      .timeUp (complete_quiz now db st userId).1 ∧
    (skip_question now db st userId).2.1 =
      (complete_quiz now db st userId).2.1 ∧
    (∀ v, v ≠ userId →
       (submit_answer now db st userId answer).2.2 v =
         (complete_quiz now db st userId).2.2 v) ∧
    ((submit_answer now db st userId answer).2.2 userId = none ↔
       (complete_quiz now db st userId).2.2 userId = none) ∧
    (∀ s', (submit_answer now db st userId answer).2.2 userId = some s' →
       s'.answers = quiz.answers ∧
       s'.currentQuestion = quiz.currentQuestion) ∧
    (∀ v, v ≠ userId →
       (skip_question now db st userId).2.2 v =
         (complete_quiz now db st userId).2.2 v) ∧
    ((skip_question now db st userId).2.2 userId = none ↔
       (complete_quiz now db st userId).2.2 userId = none) := by
  have hmark : (st.set userId { quiz with isCompleted := true }) userId =
      some { quiz with isCompleted := true } :=
    Store.set_self st userId _
  have hsub : submit_answer now db st userId answer =
      (.timeUp (completeQuizData now db userId quiz).1,
       (completeQuizData now db userId quiz).2,
       if (completeQuizData now db userId quiz).1.isOk then
         (st.set userId { quiz with isCompleted := true }).erase userId
       else st.set userId { quiz with isCompleted := true }) := by
    unfold submit_answer
    simp only [hs]
    rw [if_pos ht,
      complete_quiz_some now db (st.set userId { quiz with isCompleted := true })
        userId { quiz with isCompleted := true } hmark,
      completeQuizData_isCompleted now db userId quiz true]
  have hskp : skip_question now db st userId =
      (.timeUp (completeQuizData now db userId quiz).1,
       (completeQuizData now db userId quiz).2,
       if (completeQuizData now db userId quiz).1.isOk then
         (st.set userId { quiz with isCompleted := true }).erase userId
       else st.set userId { quiz with isCompleted := true }) := by
    unfold skip_question
    simp only [hs]
    rw [if_pos ht,
      complete_quiz_some now db (st.set userId { quiz with isCompleted := true })
        userId { quiz with isCompleted := true } hmark,
      completeQuizData_isCompleted now db userId quiz true]
  have hdir := complete_quiz_some now db st userId quiz hs
  rw [hsub, hskp, hdir]
  by_cases hok : (completeQuizData now db userId quiz).1.isOk
  · simp only [hok, if_pos]
    refine ⟨trivial, trivial, trivial, trivial, ?_, ?_, ?_, ?_, ?_⟩
    · intro v hv
      rw [Store.erase_other _ userId v hv, Store.erase_other st userId v hv,
        Store.set_other st userId v _ hv]
    · simp [Store.erase_self]
    · intro s' h
      rw [Store.erase_self] at h
      exact absurd h (by simp)
    · intro v hv
      rw [Store.erase_other _ userId v hv, Store.erase_other st userId v hv,
        Store.set_other st userId v _ hv]
    · simp [Store.erase_self]
  · simp only [hok, if_neg, if_false, Bool.false_eq_true]
    refine ⟨trivial, trivial, trivial, trivial, ?_, ?_, ?_, ?_, ?_⟩
    · intro v hv
      rw [Store.set_other st userId v _ hv]
    · rw [hmark, hs]
      simp
    · intro s' h
      rw [hmark] at h
      obtain rfl : { quiz with isCompleted := true } = s' :=
        Option.some.inj h
      exact ⟨rfl, rfl⟩
    · intro v hv
      rw [Store.set_other st userId v _ hv]
    · rw [hmark, hs]
      simp

/-- Data Store for the C4 witness: user 55 exists with db id 1. -/
def exDbC4 : DataStore := ⟨[⟨1, 55⟩], [], []⟩

/-- Session of user 55 whose deadline 300 is already past at time 400. -/
def exQuizC4 : QuizSession :=
  ⟨3, [⟨61, "q", ["x", "y"], [.int 1], "single", ""⟩], 0, [], 0, 300, 300,
   false⟩

/-- Session store for the C4 witness. -/
def exStC4 : Store := Store.empty.set 55 exQuizC4

/-- Witness for C4: submitting at time 400 (deadline 300) returns the
timed-out completion with the same payload, Data Store and
session-removal outcome as completing directly. -/
theorem submit_after_deadline_equals_complete_witness :
    exStC4 55 = some exQuizC4 ∧
    (400 : Int) > exQuizC4.endTime ∧
    (submit_answer 400 exDbC4 exStC4 55 (.int 0)).1 =
      .timeUp (complete_quiz 400 exDbC4 exStC4 55).1 ∧
    (submit_answer 400 exDbC4 exStC4 55 (.int 0)).2.1 =
      (complete_quiz 400 exDbC4 exStC4 55).2.1 ∧
    (skip_question 400 exDbC4 exStC4 55).1 =
      .timeUp (complete_quiz 400 exDbC4 exStC4 55).1 ∧
    ((submit_answer 400 exDbC4 exStC4 55 (.int 0)).2.2 55 = none ↔
      (complete_quiz 400 exDbC4 exStC4 55).2.2 55 = none) := by
  have h := submit_after_deadline_equals_complete 400 exDbC4 exStC4 55
    exQuizC4 (.int 0) rfl (by decide)
  exact ⟨rfl, by decide, h.1, h.2.1, h.2.2.1, h.2.2.2.2.2.1⟩
